import Mathlib

/-
Verification development for the time-series aggregation and percentile-profile
engine of the monitoring repository.

Shallow embedding conventions:
* pandas Series/DataFrame cells are modelled with Option ℚ (none = NaN);
* timestamps in the statistics pipeline are modelled as rational numbers
  measured in minutes (so a calendar day has length 1440);
* pandas sort_values is modelled by its contract: some permutation of the
  rows ordered by the key (IsSortValuesOutput) — the default kind quicksort
  is not stable, so the relative order of equal keys is unspecified; where
  the pipeline needs one concrete outcome, a representative order is used,
  and no theorem's conclusion depends on that tie order except under an
  explicit stability hypothesis;
* per-file CSV reading and the S3 object store are modelled as environment
  data already decoded to the shapes the core functions consume.
-/

/- ---------------- Character and string helpers (Python semantics) -------- -/

/-- Python str.strip character class (ASCII whitespace). -/
def isPySpace (c : Char) : Bool :=
  c == ' ' || c == '\t' || c == '\n' || c == '\r' || c == '\x0b' || c == '\x0c'

/-- Python str.strip on a character list. -/
def pyStrip (cs : List Char) : List Char :=
  ((cs.dropWhile isPySpace).reverse.dropWhile isPySpace).reverse

/-- Python str.strip on a String. -/
def pyStripStr (s : String) : String := String.mk (pyStrip s.data)

/-- Python str.lower (ASCII). -/
def pyLowerStr (s : String) : String := String.mk (s.data.map Char.toLower)

/-- Value of a digit string read as a base-10 natural number. -/
def natOfDigits (cs : List Char) : ℕ :=
  cs.foldl (fun a c => 10 * a + (c.toNat - 48)) 0

/-- The non-breaking space character stripped by the numeric coercion. -/
def nbspChar : Char := '\u00A0'

/- ---------------- prepare._parse_time_first_col ------------------------- -/

/-- Result of a successful pandas timestamp parse (naive datetime). -/
structure PyDateTime where
  year : ℕ
  month : ℕ
  day : ℕ
  hour : ℕ
  minute : ℕ
  second : ℕ
  microsecond : ℕ
deriving DecidableEq

/-- Two-digit numeral value. -/
def d2n (a b : Char) : ℕ := 10 * (a.toNat - 48) + (b.toNat - 48)

/-- Four-digit numeral value. -/
def d4n (a b c d : Char) : ℕ :=
  1000 * (a.toNat - 48) + 100 * (b.toNat - 48) + 10 * (c.toNat - 48) + (d.toNat - 48)

/-- Model of the strict regex match and extraction in _parse_time_first_col:
pattern YYYY-MM-DD[ T]HH:MM:SS with an optional [,.]digits fractional tail.
Returns the six time fields and the captured fraction digits; a missing
fraction yields the digits "0" (the fillna("0") in the source). -/
def strictSplit (cs : List Char) : Option (ℕ × ℕ × ℕ × ℕ × ℕ × ℕ × List Char) :=
  match cs with
  | y1 :: y2 :: y3 :: y4 :: '-' :: mo1 :: mo2 :: '-' :: dd1 :: dd2 :: sep ::
      h1 :: h2 :: ':' :: mi1 :: mi2 :: ':' :: ss1 :: ss2 :: rest =>
    if ([y1, y2, y3, y4, mo1, mo2, dd1, dd2, h1, h2, mi1, mi2, ss1, ss2].all Char.isDigit
        && (sep == ' ' || sep == 'T')) then
      match rest with
      | [] => some (d4n y1 y2 y3 y4, d2n mo1 mo2, d2n dd1 dd2,
                    d2n h1 h2, d2n mi1 mi2, d2n ss1 ss2, ['0'])
      | c :: ds =>
        if ((c == ',' || c == '.') && ds.all Char.isDigit && !ds.isEmpty) then
          some (d4n y1 y2 y3 y4, d2n mo1 mo2, d2n dd1 dd2,
                d2n h1 h2, d2n mi1 mi2, d2n ss1 ss2, ds)
        else none
    else none
  | _ => none

/-- The source right-pads / truncates the captured fraction digits to 6 places:
frac.str.slice(0, 6).str.ljust(6, "0"). -/
def padTrunc6 (cs : List Char) : List Char :=
  cs.take 6 ++ List.replicate (6 - (cs.take 6).length) '0'

/-- Microseconds obtained from the captured fraction digits, exactly as the
source computes them (pad/truncate to 6 digits, then read as %f). -/
def microsOfFrac (cs : List Char) : ℕ := natOfDigits (padTrunc6 cs)

/-- Gregorian month length, as validated by the datetime library. -/
def daysInMonth (y m : ℕ) : ℕ :=
  if m = 2 then (if (y % 4 = 0 ∧ y % 100 ≠ 0) ∨ y % 400 = 0 then 29 else 28)
  else if m = 4 ∨ m = 6 ∨ m = 9 ∨ m = 11 then 30 else 31

/-- Per-string model of the strict branch of _parse_time_first_col: strip,
match the strict pattern, normalize the fraction to 6 digits and parse with
format %Y-%m-%d %H:%M:%S.%f (errors="coerce", so invalid dates give none). -/
def parseStrict (s : String) : Option PyDateTime :=
  match strictSplit (pyStrip s.data) with
  | none => none
  | some (y, mo, d, h, mi, sec, frac) =>
    if 1 ≤ mo ∧ mo ≤ 12 ∧ 1 ≤ d ∧ d ≤ daysInMonth y mo ∧ h ≤ 23 ∧ mi ≤ 59 ∧ sec ≤ 59 then
      some ⟨y, mo, d, h, mi, sec, microsOfFrac frac⟩
    else none

/-- Count of parsed (non-NaT) entries, i.e. notna().sum(). -/
def countSome (l : List (Option PyDateTime)) : ℕ := l.countP (fun x => x.isSome)

/-- Steps 2 and 3 of _parse_time_first_col: generic auto-parsing (fb models
pd.to_datetime(col, errors="coerce")) and, when it parses fewer than 80% of
rows, epoch-seconds parsing (ep models pd.to_datetime(col, unit="s")).
Both collaborators are external library behaviour, passed in as oracles. -/
def parseTimeFallback (fb ep : String → Option PyDateTime) (col : List String) :
    List (Option PyDateTime) :=
  let ts := col.map fb
  if 5 * countSome ts < 4 * col.length then
    let ts2 := col.map ep
    if 5 * countSome ts2 ≥ 4 * col.length then ts2 else ts
  else ts

/-- Model of _parse_time_first_col on a string column: the strict branch is
taken when at least 80% of the stripped rows match the strict pattern and at
least 80% of rows then parse; otherwise the fallback chain runs. The 80%
thresholds m.mean() ≥ 0.8 and notna().sum() ≥ len*0.8 are the rational
comparisons 5*count ≥ 4*len (an empty column fails the mean test since the
mean of an empty mask is NaN). -/
def parseTimeFirstCol (fb ep : String → Option PyDateTime) (col : List String) :
    List (Option PyDateTime) :=
  let stripped := col.map pyStripStr
  let matched := stripped.countP (fun s => (strictSplit s.data).isSome)
  if col ≠ [] ∧ 5 * matched ≥ 4 * col.length then
    let tsTry := stripped.map parseStrict
    if 5 * countSome tsTry ≥ 4 * col.length then tsTry else parseTimeFallback fb ep col
  else parseTimeFallback fb ep col

/- ---------------- prepare._to_num and numeric coercion ------------------ -/

/-- Exponent tail of a float literal (after e or E): optional sign and a
nonempty run of digits ending the literal. -/
def expTail (cs : List Char) : Option (Bool × ℕ) :=
  let p : Bool × List Char :=
    match cs with
    | '+' :: r => (false, r)
    | '-' :: r => (true, r)
    | r => (false, r)
  let ds := p.2.takeWhile Char.isDigit
  let rest := p.2.dropWhile Char.isDigit
  if ds = [] ∨ rest ≠ [] then none else some (p.1, natOfDigits ds)

/-- Optional exponent part of a float literal. -/
def expParts (cs : List Char) : Option (Option (Bool × ℕ)) :=
  match cs with
  | [] => some none
  | 'e' :: r => (expTail r).map some
  | 'E' :: r => (expTail r).map some
  | _ => none

/-- Syntactic analysis of a float literal: sign, integer-part value,
fraction-part value and digit count, optional exponent. The mantissa accepts
digits, digits.digits, digits. and .digits, with at least one digit. -/
def pyFloatParts (cs : List Char) : Option (Bool × ℕ × ℕ × ℕ × Option (Bool × ℕ)) :=
  let p : Bool × List Char :=
    match cs with
    | '+' :: r => (false, r)
    | '-' :: r => (true, r)
    | r => (false, r)
  let ip := p.2.takeWhile Char.isDigit
  let r2 := p.2.dropWhile Char.isDigit
  match r2 with
  | '.' :: r3 =>
    let fp := r3.takeWhile Char.isDigit
    let r4 := r3.dropWhile Char.isDigit
    if ip = [] ∧ fp = [] then none
    else (expParts r4).map (fun e => (p.1, natOfDigits ip, natOfDigits fp, fp.length, e))
  | _ =>
    if ip = [] then none
    else (expParts r2).map (fun e => (p.1, natOfDigits ip, 0, 0, e))

/-- Rational value of an analysed float literal. -/
def pyFloatVal (neg : Bool) (ip fp fpLen : ℕ) (ex : Option (Bool × ℕ)) : ℚ :=
  let m : ℚ := (if neg then -1 else 1) * ((ip : ℚ) + (fp : ℚ) / 10 ^ fpLen)
  match ex with
  | none => m
  | some (eneg, e) => if eneg then m / 10 ^ e else m * 10 ^ e

/-- Model of the scalar coercion done by pd.to_numeric(errors="coerce") on a
string cell: a standard float literal parses exactly, anything else is NaN
(none). Special spellings such as "inf"/"nan" are outside the modelled
inputs. -/
def pyFloat (cs : List Char) : Option ℚ :=
  (pyFloatParts cs).map (fun q => pyFloatVal q.1 q.2.1 q.2.2.1 q.2.2.2.1 q.2.2.2.2)

/-- Cell-level transformation of prepare._to_num on an object column: remove
non-breaking and regular spaces, replace the decimal comma with a dot, then
coerce; no unit-suffix characters are removed. -/
def toNumCell (s : String) : Option ℚ :=
  pyFloat ((s.data.filter (fun c => !(c == ' ' || c == nbspChar))).map
    (fun c => if c == ',' then '.' else c))

/-- Characters kept by the dashboard variant coerce_numeric in
streamlit_app.py (regex class [0-9eE+\-.]). -/
def allowedNumChar (c : Char) : Bool :=
  c.isDigit || c == 'e' || c == 'E' || c == '+' || c == '-' || c == '.'

/-- Cell-level transformation of streamlit_app.coerce_numeric: like _to_num
but additionally removing every character outside [0-9eE+-.] (unit suffixes
and stray text) before the coercion. -/
def coerceNumericCell (s : String) : Option ℚ :=
  pyFloat (((s.data.filter (fun c => !(c == ' ' || c == nbspChar))).map
    (fun c => if c == ',' then '.' else c)).filter allowedNumChar)

/-- A pandas column: numeric dtype, or object dtype holding strings. -/
inductive PyCol where
  | num : List (Option ℚ) → PyCol
  | obj : List String → PyCol
deriving DecidableEq

/-- prepare._to_num on a column: numeric columns pass through unchanged;
object columns are transformed cell-wise and become numeric (errors="coerce"
maps every failing cell to NaN without raising). -/
def toNum : PyCol → PyCol
  | PyCol.num l => PyCol.num l
  | PyCol.obj l => PyCol.num (l.map toNumCell)

/- ---------------- prepare.normalize ------------------------------------- -/

/-- A raw table as read from CSV: column names (first name is the timestamp
column), the first column's raw string values, and the remaining columns. -/
structure PyDf where
  names : List String
  timeCol : List String
  others : List PyCol
deriving DecidableEq

/-- Truncating a column to zero rows keeps its dtype (df.head(0)). -/
def emptyCol : PyCol → PyCol
  | PyCol.num _ => PyCol.num []
  | PyCol.obj _ => PyCol.obj []

/-- Strictly monotone linearisation of PyDateTime used as a sort key
(lexicographic on the fields, hence chronological order). -/
def dtKey (t : PyDateTime) : ℕ :=
  (((((t.year * 13 + t.month) * 32 + t.day) * 24 + t.hour) * 60 + t.minute) * 60
      + t.second) * 1000000 + t.microsecond

/-- Stable insertion used to model the sort_index over row positions. -/
def insertByKey (r : ℕ × PyDateTime) : List (ℕ × PyDateTime) → List (ℕ × PyDateTime)
  | [] => [r]
  | y :: ys => if dtKey y.2 < dtKey r.2 then y :: insertByKey r ys else r :: y :: ys

/-- Stable sort of (row position, timestamp) pairs by timestamp. -/
def sortIdxByTime : List (ℕ × PyDateTime) → List (ℕ × PyDateTime)
  | [] => []
  | x :: xs => insertByKey x (sortIdxByTime xs)

/-- Row selection (df.loc reordering) on a column. -/
def selCol (c : PyCol) (idxs : List ℕ) : PyCol :=
  match c with
  | PyCol.num l => PyCol.num (idxs.map (fun i => l.getD i none))
  | PyCol.obj l => PyCol.obj (idxs.map (fun i => l.getD i ""))

/-- Numeric view of a coerced column. -/
def colToNumList : PyCol → List (Option ℚ)
  | PyCol.num l => l
  | PyCol.obj l => l.map toNumCell

/-- Result of prepare.normalize, one constructor per return site of the
source: the df-empty early return, the zero-parseable-timestamps early return
df.head(0), and the fully normalized time-indexed numeric table. -/
inductive NormOut where
  | unchanged : PyDf → NormOut
  | headZero : PyDf → NormOut
  | normalized : List PyDateTime → List (String × List (Option ℚ)) → NormOut
deriving DecidableEq

/-- Positions of the rows whose timestamp parsed (the mask ts.notna()). -/
def keepIdx (ts : List (Option PyDateTime)) (n : ℕ) : List ℕ :=
  (List.range n).filter (fun i => (ts.getD i none).isSome)

/-- The full-path body of prepare.normalize, reached when at least one row
parsed: keep the parsed rows, index and stably sort them by timestamp, drop
the time column and any column named uptime (case-insensitive), and coerce
every remaining column. -/
def normFull (fb ep : String → Option PyDateTime) (df : PyDf) : NormOut :=
  let ts := parseTimeFirstCol fb ep df.timeCol
  let keep := keepIdx ts df.timeCol.length
  let kept := keep.map (fun i => (i, (ts.getD i none).getD ⟨0, 0, 0, 0, 0, 0, 0⟩))
  let sortedRows := sortIdxByTime kept
  let order := sortedRows.map Prod.fst
  let names := df.names.map pyStripStr
  let timeName := names.headD ""
  let cols1 := (names.tail.zip df.others).filter (fun p => p.1 != timeName)
  let cols2 := cols1.filter (fun p => pyLowerStr p.1 != "uptime")
  NormOut.normalized (sortedRows.map Prod.snd)
    (cols2.map (fun p => (p.1, colToNumList (selCol p.2 order))))

/-- Model of prepare.normalize (the name normalize itself is taken by
Mathlib): return the input unchanged when it is empty; parse the first column
as time and return df.head(0) — stripped names, zero rows, dtypes intact —
when no row's timestamp parses; otherwise run the full path. -/
def pyNormalize (fb ep : String → Option PyDateTime) (df : PyDf) : NormOut :=
  if df.timeCol = [] then NormOut.unchanged df
  else if keepIdx (parseTimeFirstCol fb ep df.timeCol) df.timeCol.length = [] then
    NormOut.headZero ⟨df.names.map pyStripStr, [], df.others.map emptyCol⟩
  else normFull fb ep df

/- ---------------- recompute_stats: day reading and profiles -------------- -/

/-- Insertion by timestamp for the merged day table (rows are
(timestamp, target value) pairs; timestamps are rational minutes). -/
def insertByTime (r : ℚ × Option ℚ) :
    List (ℚ × Option ℚ) → List (ℚ × Option ℚ)
  | [] => [r]
  | y :: ys => if y.1 < r.1 then y :: insertByTime r ys else r :: y :: ys

/-- One admissible outcome of out.sort_values(TIME_COLUMN): the
representative with file-read tie order. sort_values itself (default
kind=quicksort, not stable) only guarantees IsSortValuesOutput below; the
scheduler pipeline uses this representative, and no claim settled on the
pipeline depends on the tie order among equal timestamps. -/
def sortByTime : List (ℚ × Option ℚ) → List (ℚ × Option ℚ)
  | [] => []
  | x :: xs => insertByTime x (sortByTime xs)

/-- Model of drop_duplicates(subset=[TIME_COLUMN], keep="last"): a row
survives exactly when no later row carries the same timestamp. -/
def dropDupKeepLast : List (ℚ × Option ℚ) → List (ℚ × Option ℚ)
  | [] => []
  | r :: rest =>
    if rest.any (fun r2 => decide (r2.1 = r.1)) then dropDupKeepLast rest
    else r :: dropDupKeepLast rest

/-- Model of _read_day_dataframe after the per-file reads: parts is the list
of successfully-read per-file (timestamp, value) tables, in ascending key
order (the order the files are read); the merged table is their
concatenation, sorted by timestamp (here with the representative tie order)
and deduplicated keeping the last occurrence. -/
def readDayDataframe (parts : List (List (ℚ × Option ℚ))) : List (ℚ × Option ℚ) :=
  dropDupKeepLast (sortByTime parts.flatten)

/-- The rows of a table carrying a given timestamp, in table order (used to
state the deduplication property). -/
def keyRows (t : ℚ) (l : List (ℚ × Option ℚ)) : List (ℚ × Option ℚ) :=
  l.filter (fun r => decide (r.1 = t))

/-- The contract of out.sort_values(TIME_COLUMN) with the default
kind=quicksort: the output is some permutation of the input rows that is
ordered by timestamp; the relative order of rows with equal timestamps is
unspecified (the algorithm is documented as not stable). -/
def IsSortValuesOutput (s inp : List (ℚ × Option ℚ)) : Prop :=
  s.Perm inp ∧ s.Pairwise (fun a b => a.1 ≤ b.1)

/-- Mean-with-NaN semantics of a resampled bucket: the mean of the non-NaN
values, NaN when there are none. -/
def meanOpt (vs : List (Option ℚ)) : Option ℚ :=
  let xs := vs.filterMap id
  if xs = [] then none else some (xs.sum / xs.length)

/-- Resample bucket label of a timestamp: buckets of width agg minutes,
anchored (origin "start_day") at midnight of the first sample's day. -/
def resampleLabel (dataStart : ℚ) (agg : ℕ) (t : ℚ) : ℚ :=
  dataStart + agg * ⌊(t - dataStart) / agg⌋

/-- Model of _build_day_series: the day series has exactly 24*60/agg buckets;
bucket i covers [dayStart + i*agg, dayStart + (i+1)*agg) and carries the mean
of the values whose resample label equals that bucket start (reindexing onto
the day grid makes every other bucket NaN); an empty day table yields an
all-NaN series. The synthetic 2000-01-01 re-anchoring is positional: entry i
of the returned list is the value at synthetic index 2000-01-01 + i*agg.
The first helper is the resample origin (midnight of the first sample's day,
pandas origin "start_day"), measured in minutes. -/
def dayDataStart (r : ℚ × Option ℚ) (rs : List (ℚ × Option ℚ)) : ℚ :=
  1440 * ⌊((rs.map Prod.fst).foldl min r.1) / 1440⌋

/-- One resampled bucket of the day series: the mean of the values whose
resample label equals the bucket start b (NaN when there are none, which also
covers buckets the reindex onto the day grid fills with NaN). -/
def dayBucket (rows : List (ℚ × Option ℚ)) (dataStart : ℚ) (agg : ℕ) (b : ℚ) :
    Option ℚ :=
  meanOpt ((rows.filter
    (fun row => decide (resampleLabel dataStart agg row.1 = b))).map Prod.snd)

def buildDaySeries (rows : List (ℚ × Option ℚ)) (dayStart : ℚ) (agg : ℕ) :
    List (Option ℚ) :=
  let n := 24 * 60 / agg
  match rows with
  | [] => List.replicate n none
  | r :: rs =>
    (List.range n).map (fun i =>
      dayBucket (r :: rs) (dayDataStart r rs) agg (dayStart + (i * agg : ℕ)))

/-- The fixed percentile list of the statistics pipeline. -/
def PERCENTILES : List (ℚ × String) :=
  [(0.005, "P0.5"), (0.025, "P2.5"), (0.05, "P5"), (0.25, "P25"),
   (0.75, "P75"), (0.95, "P95"), (0.975, "P97.5"), (0.995, "P99.5")]

/-- Linear interpolation at a fractional position over a sorted value list,
as numpy computes a quantile: with k = floor(pos), the value is
xs[k] + (pos - k) * (xs[k+1] - xs[k]) (clamped to xs[k] at the top end). -/
def interpAt (xs : List ℚ) (pos : ℚ) : ℚ :=
  xs.getD (⌊pos⌋).toNat 0 +
    (pos - ((⌊pos⌋).toNat : ℚ)) *
      (xs.getD ((⌊pos⌋).toNat + 1) (xs.getD (⌊pos⌋).toNat 0) - xs.getD (⌊pos⌋).toNat 0)

/-- Linear-interpolation quantile of a sorted nonempty list at q in [0, 1]. -/
def quantileSorted (xs : List ℚ) (q : ℚ) : ℚ :=
  interpAt xs (q * ((xs.length : ℚ) - 1))

/-- Model of _compute_quantiles: an empty day group yields the full bucket
count with NaN in every percentile column; otherwise each bucket's available
(non-NaN) values across days are collected and each configured quantile is
interpolated over them (df.quantile(p, axis=1) with skipna semantics); a
bucket with no values yields NaN in every column. -/
def computeQuantiles (seriesList : List (List (Option ℚ))) (agg : ℕ) :
    List (List (Option ℚ)) :=
  let n := 24 * 60 / agg
  if seriesList = [] then
    List.replicate n (PERCENTILES.map (fun _ => none))
  else
    (List.range n).map (fun i =>
      let vals := seriesList.filterMap (fun s => s.getD i none)
      PERCENTILES.map (fun pl =>
        if vals = [] then none
        else some (quantileSorted (List.insertionSort (fun a b => a ≤ b) vals) pl.1)))

/- ---------------- recompute_stats: scheduler ----------------------------- -/

/-- The target column of the statistics pipeline. -/
def TARGET_COLUMN : String := "P_total"

/-- The percentile levels persisted in state.json. -/
def curPercentiles : List ℚ := PERCENTILES.map Prod.fst

/-- Fingerprint of the most recent day's partition (_day_signature). -/
structure Sig where
  day : String
  fileCount : ℕ
  maxKey : String
  maxLastModified : String
deriving DecidableEq

/-- Parsed state.json as read by _read_state: every key may be absent (a
missing or corrupt file reads as the empty object, i.e. all fields none). -/
structure StateJ where
  last_day : Option String := none
  last_day_file_count : Option ℕ := none
  last_day_max_key : Option String := none
  last_day_max_last_modified : Option String := none
  agg_minutes : Option ℕ := none
  target_column : Option String := none
  percentiles : Option (List ℚ) := none
deriving DecidableEq

/-- The new_state dictionary written after a successful recompute. -/
structure StateRec where
  computed_at : String
  last_day : String
  last_day_file_count : ℕ
  last_day_max_key : String
  last_day_max_last_modified : String
  agg_minutes : ℕ
  target_column : String
  percentiles : List ℚ
  percentile_labels : List String
  days_total : ℕ
  days_weekday : ℕ
  days_weekend : ℕ
deriving DecidableEq

/-- Reading back a just-written state.json (exact JSON round-trip). -/
def stateJOfRec (r : StateRec) : StateJ :=
  { last_day := some r.last_day,
    last_day_file_count := some r.last_day_file_count,
    last_day_max_key := some r.last_day_max_key,
    last_day_max_last_modified := some r.last_day_max_last_modified,
    agg_minutes := some r.agg_minutes,
    target_column := some r.target_column,
    percentiles := some r.percentiles }

/-- Model of _get_agg_minutes_for_project: the plot_agg_minutes setting when
present and positive, the fallback 5 otherwise (missing or corrupt settings
files read as none). -/
def getAggMinutes (o : Option ℤ) : ℕ :=
  match o with
  | none => 5
  | some v => if v ≤ 0 then 5 else v.toNat

/-- One project's view of the object store and computation inputs, as read by
_recompute_project: presence of All/, the discovered (sorted) day folder
names, the per-day fingerprint, the persisted state, the aggregation setting,
non-emptiness of the two output CSVs, the per-day decoded file parts, the
day's midnight as resolved by the datetime library, and the outcome of the
calendar/holiday classification for each day string. -/
structure ProjEnv where
  hasAll : Bool
  days : List String
  daySig : String → Sig
  state : StateJ
  plotAggMinutes : Option ℤ
  weekdayCsvOk : Bool
  weekendCsvOk : Bool
  dayParts : String → List (List (ℚ × Option ℚ))
  dayStart : String → ℚ
  isHoliday : String → Bool
  nowIso : String

/-- Everything one _recompute_project call returns and writes: its status
string, the state.json it wrote (if any) and the two quantile tables written
as weekday.csv / weekend.csv (if any). -/
structure RunResult where
  status : String
  writtenState : Option StateRec
  wroteWeekday : Option (List (List (Option ℚ)))
  wroteWeekend : Option (List (List (Option ℚ)))
deriving DecidableEq

/-- The same_input comparison of _recompute_project (str(... or "") and
int(... or 0) readbacks against the fresh fingerprint). -/
def sameInput (st : StateJ) (sig : Sig) : Prop :=
  st.last_day.getD "" = sig.day ∧
  st.last_day_file_count.getD 0 = sig.fileCount ∧
  st.last_day_max_last_modified.getD "" = sig.maxLastModified ∧
  st.last_day_max_key.getD "" = sig.maxKey

instance (st : StateJ) (sig : Sig) : Decidable (sameInput st sig) := by
  unfold sameInput; exact inferInstance

/-- The same_params comparison of _recompute_project. -/
def sameParams (st : StateJ) (agg : ℕ) : Prop :=
  st.target_column.getD "" = TARGET_COLUMN ∧
  st.agg_minutes.getD 0 = agg ∧
  st.percentiles.getD [] = curPercentiles

instance (st : StateJ) (agg : ℕ) : Decidable (sameParams st agg) := by
  unfold sameParams; exact inferInstance

/-- The weekday group built by the recompute loop: every non-holiday day's
profile, in discovery order. -/
def weekdayProfiles (env : ProjEnv) (agg : ℕ) : List (List (Option ℚ)) :=
  (env.days.filter (fun d => !env.isHoliday d)).map
    (fun d => buildDaySeries (readDayDataframe (env.dayParts d)) (env.dayStart d) agg)

/-- The weekend/holiday group built by the recompute loop. -/
def weekendProfiles (env : ProjEnv) (agg : ℕ) : List (List (Option ℚ)) :=
  (env.days.filter (fun d => env.isHoliday d)).map
    (fun d => buildDaySeries (readDayDataframe (env.dayParts d)) (env.dayStart d) agg)

/-- The full-recompute branch of _recompute_project: build both groups,
aggregate both quantile tables, write both CSVs and the new state. -/
def okResult (env : ProjEnv) (sig : Sig) (agg : ℕ) : RunResult :=
  { status := "ok",
    writtenState := some
      { computed_at := env.nowIso,
        last_day := sig.day,
        last_day_file_count := sig.fileCount,
        last_day_max_key := sig.maxKey,
        last_day_max_last_modified := sig.maxLastModified,
        agg_minutes := agg,
        target_column := TARGET_COLUMN,
        percentiles := curPercentiles,
        percentile_labels := PERCENTILES.map Prod.snd,
        days_total := env.days.length,
        days_weekday := (weekdayProfiles env agg).length,
        days_weekend := (weekendProfiles env agg).length },
    wroteWeekday := some (computeQuantiles (weekdayProfiles env agg) agg),
    wroteWeekend := some (computeQuantiles (weekendProfiles env agg) agg) }

/-- Model of _recompute_project: skip when All/ is absent, when no day folder
exists (the Python falsy test on days[-1], where a missing last day reads as
the empty string), or when the latest-day fingerprint, the parameters and the
presence of both outputs all match the persisted state; otherwise recompute
fully. -/
def recomputeProject (env : ProjEnv) : RunResult :=
  if env.hasAll = true then
    if env.days.getLast?.getD "" = "" then ⟨"skipped_no_days", none, none, none⟩
    else if sameInput env.state (env.daySig (env.days.getLast?.getD "")) ∧
        sameParams env.state (getAggMinutes env.plotAggMinutes) ∧
        env.weekdayCsvOk = true ∧ env.weekendCsvOk = true then
      ⟨"skipped_no_changes", none, none, none⟩
    else
      okResult env (env.daySig (env.days.getLast?.getD ""))
        (getAggMinutes env.plotAggMinutes)
  else ⟨"skipped_no_all", none, none, none⟩

/-- The world after an ok run, entering the immediately following run: the
state.json just written is read back, and both just-written CSVs are present
and non-empty (a written quantile CSV always contains at least its header
line); days, fingerprints and settings are per the claim unchanged. -/
def afterRun (env : ProjEnv) (r : RunResult) : ProjEnv :=
  match r.writtenState with
  | some ns => { env with state := stateJOfRec ns, weekdayCsvOk := true, weekendCsvOk := true }
  | none => env

/-- A project whose All/ prefix holds no object (for example because the
objects were removed after discovery): the run takes the first early return. -/
def envNoAll : ProjEnv :=
  { hasAll := false, days := [], daySig := fun d => ⟨d, 0, "", ""⟩, state := {},
    plotAggMinutes := none, weekdayCsvOk := false, weekendCsvOk := false,
    dayParts := fun _ => [], dayStart := fun _ => 0, isHoliday := fun _ => false,
    nowIso := "" }

/-- A concrete project with one discovered day and no persisted state, on
which a run performs the full recompute and returns ok. -/
def envOkSample : ProjEnv :=
  { hasAll := true, days := ["2025.01.01"],
    daySig := fun d => ⟨d, 1, "k.csv", "2025-01-01T00:00:00"⟩, state := {},
    plotAggMinutes := none, weekdayCsvOk := false, weekendCsvOk := false,
    dayParts := fun _ => [], dayStart := fun _ => 0, isHoliday := fun _ => false,
    nowIso := "2025-01-02T00:00:00Z" }

/- ======================= Theorems ======================================== -/

/- Helper lemmas shared by several claims. -/

theorem meanOpt_eq_none (vs : List (Option ℚ)) (h : ∀ v ∈ vs, v = none) :
    meanOpt vs = none := by
  unfold meanOpt
  have hnil : vs.filterMap id = [] := List.filterMap_eq_nil_iff.mpr h
  simp [hnil]

theorem resampleLabel_bounds (dataStart : ℚ) (agg : ℕ) (hagg : 0 < agg) (t b : ℚ)
    (h : resampleLabel dataStart agg t = b) : b ≤ t ∧ t < b + agg := by
  have haggQ : (0 : ℚ) < (agg : ℚ) := by exact_mod_cast hagg
  subst h
  unfold resampleLabel
  constructor
  · have h1 : ((⌊(t - dataStart) / agg⌋ : ℤ) : ℚ) ≤ (t - dataStart) / agg := Int.floor_le _
    have h2 : (agg : ℚ) * ((⌊(t - dataStart) / agg⌋ : ℤ) : ℚ) ≤ t - dataStart := by
      calc (agg : ℚ) * ((⌊(t - dataStart) / agg⌋ : ℤ) : ℚ)
          ≤ (agg : ℚ) * ((t - dataStart) / agg) := mul_le_mul_of_nonneg_left h1 haggQ.le
        _ = t - dataStart := by field_simp
    linarith
  · have h2 : (t - dataStart) / agg < ((⌊(t - dataStart) / agg⌋ : ℤ) : ℚ) + 1 :=
      Int.lt_floor_add_one _
    have h3 : t - dataStart < (((⌊(t - dataStart) / agg⌋ : ℤ) : ℚ) + 1) * agg :=
      (div_lt_iff₀ haggQ).mp h2
    nlinarith [h3]

theorem dayBucket_eq_none (rows : List (ℚ × Option ℚ)) (dataStart : ℚ) (agg : ℕ)
    (hagg : 0 < agg) (b : ℚ)
    (h : ∀ x ∈ rows, b ≤ x.1 → x.1 < b + agg → x.2 = none) :
    dayBucket rows dataStart agg b = none := by
  unfold dayBucket
  refine meanOpt_eq_none _ ?_
  intro v hv
  rcases List.mem_map.mp hv with ⟨row, hrowmem, hveq⟩
  rcases List.mem_filter.mp hrowmem with ⟨hrowin, hpred⟩
  have hlab : resampleLabel dataStart agg row.1 = b := of_decide_eq_true hpred
  have hb := resampleLabel_bounds _ agg hagg _ _ hlab
  exact hveq ▸ h row hrowin hb.1 hb.2

theorem getD_map_range {α : Type} (n i : ℕ) (hi : i < n) (g : ℕ → α) (d : α) :
    ((List.range n).map g).getD i d = g i := by
  rw [List.getD_eq_getElem?_getD, List.getElem?_map, List.getElem?_range hi]
  rfl

theorem buildDaySeries_getD_cons (r : ℚ × Option ℚ) (rs : List (ℚ × Option ℚ))
    (dayStart : ℚ) (agg : ℕ) (i : ℕ) (hi : i < 24 * 60 / agg) :
    (buildDaySeries (r :: rs) dayStart agg).getD i (some 0)
      = dayBucket (r :: rs) (dayDataStart r rs) agg (dayStart + (i * agg : ℕ)) := by
  simp only [buildDaySeries]
  exact getD_map_range _ _ hi _ _

/-- C3: for every day (present, partial or entirely absent) and every positive
bucket width, the Day-Profile Builder returns a series of exactly 24*60/agg
values on the synthetic reference grid; an entirely absent day yields a
full-length all-NaN profile rather than an error or a shorter series, and any
bucket whose window holds no real (non-NaN) data is NaN. -/
theorem c3_day_profile_fixed_length (rows : List (ℚ × Option ℚ)) (dayStart : ℚ)
    (agg : ℕ) (hagg : 0 < agg) :
    (buildDaySeries rows dayStart agg).length = 24 * 60 / agg ∧
    (rows = [] → buildDaySeries rows dayStart agg = List.replicate (24 * 60 / agg) none) ∧
    (∀ i, i < 24 * 60 / agg →
      (∀ r ∈ rows, dayStart + (i * agg : ℕ) ≤ r.1 → r.1 < dayStart + (i * agg : ℕ) + agg →
        r.2 = none) →
      (buildDaySeries rows dayStart agg).getD i (some 0) = none) := by
  refine ⟨?_, ?_, ?_⟩
  · cases rows <;> simp [buildDaySeries]
  · intro h; subst h; rfl
  · intro i hi hnone
    cases rows with
    | nil =>
      simp only [buildDaySeries]
      rw [List.getD_eq_getElem?_getD, List.getElem?_replicate]
      simp [hi]
    | cons r rs =>
      rw [buildDaySeries_getD_cons r rs dayStart agg i hi]
      exact dayBucket_eq_none _ _ _ hagg _ hnone

theorem c3_day_profile_fixed_length_witness :
    0 < 20 ∧
    ((buildDaySeries [] 0 20).length = 24 * 60 / 20 ∧
    (([] : List (ℚ × Option ℚ)) = [] →
      buildDaySeries [] 0 20 = List.replicate (24 * 60 / 20) none) ∧
    (∀ i, i < 24 * 60 / 20 →
      (∀ r ∈ ([] : List (ℚ × Option ℚ)), (0 : ℚ) + (i * 20 : ℕ) ≤ r.1 →
        r.1 < (0 : ℚ) + (i * 20 : ℕ) + 20 → r.2 = none) →
      (buildDaySeries [] 0 20).getD i (some 0) = none)) :=
  ⟨by decide, c3_day_profile_fixed_length [] 0 20 (by decide)⟩

/-- C5 counterexample: the statistics-path coercion prepare._to_num does not
strip trailing unit suffixes, so the cell "1 234,56 kW" coerces to NaN, not
to the number 1234.56 the claim asserts. -/
theorem c5_unit_suffix_cell_is_nan :
    toNum (PyCol.obj ["1 234,56 kW"]) = PyCol.num [none] ∧
    toNum (PyCol.obj ["1 234,56 kW"]) ≠ PyCol.num [some (1234.56 : ℚ)] := by
  have h : toNum (PyCol.obj ["1 234,56 kW"]) = PyCol.num [none] := rfl
  refine ⟨h, ?_⟩
  rw [h]
  intro hcontra
  simp at hcontra

/-- C5 amended: prepare._to_num strips regular and non-breaking spaces and
replaces the decimal comma, coercing cell-wise so that failures become NaN
without raising and without touching other rows, but it does not strip unit
suffixes ("1 234,56 kW" becomes NaN); the unit-suffix stripping described by
the claim is performed only by the dashboard variant coerce_numeric, under
which "1 234,56 kW" does normalize to 1234.56. -/
theorem c5_numeric_coercion_behaviour :
    (∀ l, toNum (PyCol.obj l) = PyCol.num (l.map toNumCell)) ∧
    (∀ l, toNum (PyCol.num l) = PyCol.num l) ∧
    toNumCell "1 234,56" = some (1234.56 : ℚ) ∧
    toNumCell "1 234,56 kW" = none ∧
    toNumCell "abc" = none ∧
    coerceNumericCell "1 234,56 kW" = some (1234.56 : ℚ) ∧
    coerceNumericCell "abc" = none := by
  refine ⟨fun _ => rfl, fun _ => rfl, ?_, rfl, rfl, ?_, rfl⟩
  · have h : toNumCell "1 234,56" = some (pyFloatVal false 1234 56 2 none) := rfl
    rw [h]
    norm_num [pyFloatVal]
  · have h : coerceNumericCell "1 234,56 kW" = some (pyFloatVal false 1234 56 2 none) := rfl
    rw [h]
    norm_num [pyFloatVal]

/-- C8: an empty day group yields, without raising, the full bucket count
24*60/agg with every one of the eight percentile columns NaN in every row —
never a zero-row table. -/
theorem c8_empty_group_full_table (agg : ℕ) (_hagg : 0 < agg) :
    (computeQuantiles [] agg).length = 24 * 60 / agg ∧
    ∀ row ∈ computeQuantiles [] agg, row = List.replicate 8 none := by
  constructor
  · simp [computeQuantiles]
  · intro row hrow
    simp only [computeQuantiles, if_pos rfl] at hrow
    have hr := List.eq_of_mem_replicate hrow
    rw [hr]
    rfl

theorem c8_empty_group_full_table_witness :
    0 < 20 ∧
    ((computeQuantiles [] 20).length = 24 * 60 / 20 ∧
    ∀ row ∈ computeQuantiles [] 20, row = List.replicate 8 none) :=
  ⟨by decide, c8_empty_group_full_table 20 (by decide)⟩

/- Digit-string arithmetic for the fractional-second claim. -/

theorem natOfDigits_foldl (b : List Char) (s : ℕ) :
    List.foldl (fun a c => 10 * a + (c.toNat - 48)) s b
      = s * 10 ^ b.length + natOfDigits b := by
  induction b generalizing s with
  | nil => simp [natOfDigits]
  | cons c b ih =>
    simp only [List.foldl_cons, List.length_cons, natOfDigits]
    rw [ih (10 * s + (c.toNat - 48)), ih (10 * 0 + (c.toNat - 48))]
    ring

theorem natOfDigits_append (a b : List Char) :
    natOfDigits (a ++ b) = natOfDigits a * 10 ^ b.length + natOfDigits b := by
  unfold natOfDigits
  rw [List.foldl_append]
  exact natOfDigits_foldl b _

theorem natOfDigits_zeros (k : ℕ) : natOfDigits (List.replicate k '0') = 0 := by
  induction k with
  | zero => rfl
  | succ k ih =>
    rw [List.replicate_succ]
    show List.foldl (fun a c => 10 * a + (c.toNat - 48)) (10 * 0 + ('0'.toNat - 48))
      (List.replicate k '0') = 0
    rw [natOfDigits_foldl]
    simpa using ih

theorem digit_toNat_le (c : Char) (h : c.isDigit = true) : c.toNat - 48 ≤ 9 := by
  have h2 : c ≤ '9' := by
    unfold Char.isDigit at h
    have := (Bool.and_eq_true _ _).mp h
    exact of_decide_eq_true this.2
  have h3 : c.toNat ≤ 57 := by
    have := h2
    rw [Char.le_def] at this
    exact this
  omega

theorem natOfDigits_lt (cs : List Char) (h : cs.all Char.isDigit = true) :
    natOfDigits cs < 10 ^ cs.length := by
  induction cs with
  | nil => simp [natOfDigits]
  | cons c l ih =>
    rw [List.all_cons, Bool.and_eq_true] at h
    have hd : c.toNat - 48 ≤ 9 := digit_toNat_le c h.1
    have hl := ih h.2
    show List.foldl (fun a c => 10 * a + (c.toNat - 48)) (10 * 0 + (c.toNat - 48)) l
      < 10 ^ (l.length + 1)
    rw [natOfDigits_foldl]
    have : (10 * 0 + (c.toNat - 48)) * 10 ^ l.length + natOfDigits l
        < (c.toNat - 48 + 1) * 10 ^ l.length := by
      simp only [Nat.mul_zero, Nat.zero_add, Nat.add_mul, Nat.one_mul]
      omega
    calc (10 * 0 + (c.toNat - 48)) * 10 ^ l.length + natOfDigits l
        < (c.toNat - 48 + 1) * 10 ^ l.length := this
      _ ≤ 10 * 10 ^ l.length := by
          apply Nat.mul_le_mul_right
          omega
      _ = 10 ^ (l.length + 1) := by ring

/-- C2: the Time Normalizer's strict parse treats the captured fractional
digits as a decimal fraction of the second, right-padded / truncated to six
digits: for every digit string f the stored microseconds equal
floor(value(f) / 10^len(f) * 10^6); in particular "...,5" and "...,50" both
parse to exactly 500000 microseconds (500 ms) past the second, also through
the full column-level parser. -/
theorem c2_fractional_seconds :
    (∀ cs : List Char, cs.all Char.isDigit = true →
      microsOfFrac cs = natOfDigits cs * 1000000 / 10 ^ cs.length) ∧
    parseStrict "2025-01-01 00:00:00,5" = some ⟨2025, 1, 1, 0, 0, 0, 500000⟩ ∧
    parseStrict "2025-01-01 00:00:00,50" = some ⟨2025, 1, 1, 0, 0, 0, 500000⟩ ∧
    parseTimeFirstCol (fun _ => none) (fun _ => none)
        ["2025-01-01 00:00:00,5", "2025-01-01 00:00:00,50"]
      = [some ⟨2025, 1, 1, 0, 0, 0, 500000⟩, some ⟨2025, 1, 1, 0, 0, 0, 500000⟩] := by
  refine ⟨?_, by decide, by decide, by decide⟩
  intro cs hdig
  unfold microsOfFrac padTrunc6
  by_cases h6 : cs.length ≤ 6
  · rw [List.take_of_length_le h6]
    rw [natOfDigits_append, natOfDigits_zeros, List.length_replicate, Nat.add_zero]
    have hsplit : (1000000 : ℕ) = 10 ^ (6 - cs.length) * 10 ^ cs.length := by
      rw [← pow_add]
      have : 6 - cs.length + cs.length = 6 := by omega
      rw [this]
      norm_num
    rw [hsplit, ← Nat.mul_assoc]
    rw [Nat.mul_div_cancel _ (Nat.pos_pow_of_pos cs.length (by norm_num))]
  · have h6' : 6 < cs.length := by omega
    have htlen : (cs.take 6).length = 6 := by
      rw [List.length_take]
      omega
    rw [htlen]
    simp only [Nat.sub_self, List.replicate_zero, List.append_nil]
    have hdecomp : natOfDigits cs
        = natOfDigits (cs.take 6) * 10 ^ (cs.length - 6) + natOfDigits (cs.drop 6) := by
      conv_lhs => rw [← List.take_append_drop 6 cs]
      rw [natOfDigits_append, List.length_drop]
    have hdropdig : (cs.drop 6).all Char.isDigit = true := by
      rw [List.all_eq_true] at hdig ⊢
      intro x hx
      exact hdig x (List.drop_subset 6 cs hx)
    have hr : natOfDigits (cs.drop 6) < 10 ^ (cs.length - 6) := by
      have := natOfDigits_lt _ hdropdig
      rwa [List.length_drop] at this
    rw [hdecomp]
    have hsplit : (10 : ℕ) ^ cs.length = 10 ^ (cs.length - 6) * 1000000 := by
      have h1000000 : (1000000 : ℕ) = 10 ^ 6 := by norm_num
      rw [h1000000, ← pow_add]
      congr 1
      omega
    rw [hsplit]
    rw [Nat.mul_div_mul_right _ _ (by norm_num : (0 : ℕ) < 1000000)]
    rw [Nat.mul_comm (natOfDigits (cs.take 6)) (10 ^ (cs.length - 6))]
    rw [Nat.mul_add_div (Nat.pos_pow_of_pos _ (by norm_num))]
    rw [Nat.div_eq_of_lt hr]
    omega

theorem c2_fractional_seconds_witness :
    (['5'].all Char.isDigit = true) ∧
    microsOfFrac ['5'] = natOfDigits ['5'] * 1000000 / 10 ^ (['5'] : List Char).length :=
  ⟨by decide, c2_fractional_seconds.1 ['5'] (by decide)⟩

/-- C9: on a non-empty raw table in which not a single first-column timestamp
parses, normalize returns the zero-row df.head(0): every column is retained
(names only whitespace-stripped) — including the first (timestamp) column and
any uptime column — no column is dropped, the rows are gone, and no numeric
coercion is applied (each column keeps its dtype, so the NormalizedTable
column invariants do not hold for this output). -/
theorem c9_zero_parse_headzero (fb ep : String → Option PyDateTime) (df : PyDf)
    (hne : df.timeCol ≠ [])
    (hnone : ∀ x ∈ parseTimeFirstCol fb ep df.timeCol, x = none) :
    pyNormalize fb ep df
      = NormOut.headZero ⟨df.names.map pyStripStr, [], df.others.map emptyCol⟩ := by
  have hkeep : keepIdx (parseTimeFirstCol fb ep df.timeCol) df.timeCol.length = [] := by
    unfold keepIdx
    apply List.filter_eq_nil_iff.mpr
    intro i _
    have hgd : (parseTimeFirstCol fb ep df.timeCol).getD i none = none := by
      rw [List.getD_eq_getElem?_getD]
      cases hx : (parseTimeFirstCol fb ep df.timeCol)[i]? with
      | none => rfl
      | some x =>
        have hxmem : x ∈ parseTimeFirstCol fb ep df.timeCol := List.getElem?_mem hx
        simpa using hnone x hxmem
    rw [hgd]
    simp
  unfold pyNormalize
  rw [if_neg hne, if_pos hkeep]

theorem c9_zero_parse_headzero_witness :
    (["abc"] : List String) ≠ [] ∧
    (∀ x ∈ parseTimeFirstCol (fun _ => none) (fun _ => none) ["abc"], x = none) ∧
    pyNormalize (fun _ => none) (fun _ => none)
        ⟨["timestamp", "P_total", "uptime"], ["abc"], [PyCol.obj ["7"], PyCol.num [some 3]]⟩
      = NormOut.headZero ⟨["timestamp", "P_total", "uptime"].map pyStripStr, [],
          [PyCol.obj ["7"], PyCol.num [some 3]].map emptyCol⟩ := by
  refine ⟨by decide, by decide, ?_⟩
  exact c9_zero_parse_headzero (fun _ => none) (fun _ => none)
    ⟨["timestamp", "P_total", "uptime"], ["abc"], [PyCol.obj ["7"], PyCol.num [some 3]]⟩
    (by decide) (by decide)

/- Deduplication lemmas for the merged day table. -/

theorem keyRows_cons (r : ℚ × Option ℚ) (l : List (ℚ × Option ℚ)) (t : ℚ) :
    keyRows t (r :: l) = if r.1 = t then r :: keyRows t l else keyRows t l := by
  by_cases h : r.1 = t <;> simp [keyRows, List.filter_cons, h]

theorem keyRows_insertByTime (x : ℚ × Option ℚ) (l : List (ℚ × Option ℚ)) (t : ℚ) :
    keyRows t (insertByTime x l)
      = if x.1 = t then x :: keyRows t l else keyRows t l := by
  induction l with
  | nil => exact keyRows_cons x [] t
  | cons y ys ih =>
    by_cases hlt : y.1 < x.1
    · rw [show insertByTime x (y :: ys) = y :: insertByTime x ys from by
        simp [insertByTime, hlt]]
      rw [keyRows_cons, ih, keyRows_cons]
      by_cases hy : y.1 = t
      · by_cases hx : x.1 = t
        · rw [hy, hx] at hlt
          exact absurd hlt (lt_irrefl t)
        · simp [hy, hx]
      · by_cases hx : x.1 = t <;> simp [hy, hx]
    · rw [show insertByTime x (y :: ys) = x :: y :: ys from by simp [insertByTime, hlt]]
      simp only [keyRows_cons]

theorem keyRows_sortByTime (l : List (ℚ × Option ℚ)) (t : ℚ) :
    keyRows t (sortByTime l) = keyRows t l := by
  induction l with
  | nil => rfl
  | cons x xs ih =>
    show keyRows t (insertByTime x (sortByTime xs)) = keyRows t (x :: xs)
    rw [keyRows_insertByTime, keyRows_cons, ih]

theorem dropDupKeepLast_sublist (l : List (ℚ × Option ℚ)) :
    List.Sublist (dropDupKeepLast l) l := by
  induction l with
  | nil => simp [dropDupKeepLast]
  | cons r rest ih =>
    unfold dropDupKeepLast
    by_cases h : rest.any (fun r2 => decide (r2.1 = r.1)) = true
    · rw [if_pos h]
      exact ih.cons r
    · rw [if_neg h]
      exact ih.cons₂ r

theorem keyRows_dropDupKeepLast (l : List (ℚ × Option ℚ)) (t : ℚ) :
    keyRows t (dropDupKeepLast l) = (keyRows t l).getLast?.toList := by
  induction l with
  | nil => rfl
  | cons r rest ih =>
    unfold dropDupKeepLast
    by_cases hAny : rest.any (fun r2 => decide (r2.1 = r.1)) = true
    · rw [if_pos hAny, ih, keyRows_cons]
      by_cases hr : r.1 = t
      · rw [if_pos hr]
        have hex : ∃ r2 ∈ rest, r2.1 = r.1 := by simpa using hAny
        rcases hex with ⟨r2, hr2mem, hr2key⟩
        have hr2 : r2 ∈ keyRows t rest :=
          List.mem_filter.mpr ⟨hr2mem, by simp [hr2key, hr]⟩
        have hne : keyRows t rest ≠ [] := List.ne_nil_of_mem hr2
        cases hxs : keyRows t rest with
        | nil => exact absurd hxs hne
        | cons b bs => rw [List.getLast?_cons_cons]
      · rw [if_neg hr]
    · rw [if_neg hAny, keyRows_cons, keyRows_cons, ih]
      by_cases hr : r.1 = t
      · have hnone : keyRows t rest = [] := by
          by_contra hne
          rcases List.exists_mem_of_ne_nil _ hne with ⟨x, hx⟩
          rcases List.mem_filter.mp hx with ⟨hxmem, hxkey⟩
          have hxt : x.1 = t := of_decide_eq_true hxkey
          exact hAny (List.any_eq_true.mpr ⟨x, hxmem, by simp [hxt, hr]⟩)
        rw [if_pos hr, if_pos hr, hnone]
        rfl
      · rw [if_neg hr, if_neg hr]

theorem getLast?_toList_length (l : List (ℚ × Option ℚ)) (h : l ≠ []) :
    l.getLast?.toList.length = 1 := by
  induction l with
  | nil => exact absurd rfl h
  | cons b bs ih =>
    cases bs with
    | nil => rfl
    | cons c cs =>
      rw [List.getLast?_cons_cons]
      exact ih (by simp)

/-- C6 counterexample: two files for one day, the earlier-read holding
(t = 1, v = 10) and the later-read (t = 1, v = 20). The row order
[(1, 20), (1, 10)] is an admissible sort_values output (a timestamp-ordered
permutation of the concatenation — the unstable default sort leaves the tie
order unspecified), and deduplicating it with keep="last" retains the
earlier-read file's row (1, 10), not the later-read row (1, 20) the claim
requires. -/
theorem c6_last_wins_refuted :
    IsSortValuesOutput [((1 : ℚ), some (20 : ℚ)), (1, some 10)]
      ([[((1 : ℚ), some (10 : ℚ))], [((1 : ℚ), some (20 : ℚ))]].flatten) ∧
    dropDupKeepLast [((1 : ℚ), some (20 : ℚ)), (1, some 10)]
      = [((1 : ℚ), some (10 : ℚ))] ∧
    (keyRows 1 ([[((1 : ℚ), some (10 : ℚ))], [((1 : ℚ), some (20 : ℚ))]].flatten)).getLast?.toList
      = [((1 : ℚ), some (20 : ℚ))] ∧
    (((1 : ℚ), some (10 : ℚ)) : ℚ × Option ℚ) ≠ ((1 : ℚ), some (20 : ℚ)) := by
  refine ⟨⟨List.Perm.swap _ _ _, ?_⟩, ?_, ?_, ?_⟩
  · simp [List.pairwise_cons]
  · simp [dropDupKeepLast]
  · simp [keyRows, List.filter_cons]
  · intro hcontra
    simp at hcontra

/-- C6 amended: the merged day table holds at most one row per exact
timestamp, exactly one for each timestamp that occurs, and every surviving
row is one of the input rows; because the default sort is not stable, which
duplicate survives is unspecified in general, and the surviving row is the
later-read file's (the last occurrence in file-read order) exactly under the
stability hypothesis that the sort preserved the file-read order of the
rows at that timestamp. -/
theorem c6_dedup_one_per_timestamp (parts : List (List (ℚ × Option ℚ)))
    (s : List (ℚ × Option ℚ)) (hs : IsSortValuesOutput s parts.flatten) (t : ℚ) :
    (keyRows t (dropDupKeepLast s)).length ≤ 1 ∧
    (keyRows t parts.flatten ≠ [] → (keyRows t (dropDupKeepLast s)).length = 1) ∧
    (∀ r ∈ dropDupKeepLast s, r ∈ parts.flatten) ∧
    (keyRows t s = keyRows t parts.flatten →
      keyRows t (dropDupKeepLast s) = (keyRows t parts.flatten).getLast?.toList) := by
  have hperm : (keyRows t s).Perm (keyRows t parts.flatten) := by
    unfold keyRows
    exact hs.1.filter _
  refine ⟨?_, ?_, ?_, ?_⟩
  · rw [keyRows_dropDupKeepLast]
    cases (keyRows t s).getLast? <;> simp
  · intro hne
    have hsne : keyRows t s ≠ [] := by
      intro h
      rw [h] at hperm
      exact hne hperm.symm.eq_nil
    rw [keyRows_dropDupKeepLast]
    exact getLast?_toList_length _ hsne
  · intro r hr
    exact hs.1.mem_iff.mp ((dropDupKeepLast_sublist s).subset hr)
  · intro hstab
    rw [keyRows_dropDupKeepLast, hstab]

theorem c6_dedup_one_per_timestamp_witness :
    IsSortValuesOutput [((1 : ℚ), some (10 : ℚ)), (1, some 20)]
      ([[((1 : ℚ), some (10 : ℚ))], [((1 : ℚ), some (20 : ℚ))]].flatten) ∧
    ((keyRows 1 (dropDupKeepLast [((1 : ℚ), some (10 : ℚ)), (1, some 20)])).length ≤ 1 ∧
    (keyRows 1 ([[((1 : ℚ), some (10 : ℚ))], [((1 : ℚ), some (20 : ℚ))]].flatten) ≠ [] →
      (keyRows 1 (dropDupKeepLast [((1 : ℚ), some (10 : ℚ)), (1, some 20)])).length = 1) ∧
    (∀ r ∈ dropDupKeepLast [((1 : ℚ), some (10 : ℚ)), (1, some 20)],
      r ∈ ([[((1 : ℚ), some (10 : ℚ))], [((1 : ℚ), some (20 : ℚ))]].flatten)) ∧
    (keyRows 1 [((1 : ℚ), some (10 : ℚ)), (1, some 20)]
        = keyRows 1 ([[((1 : ℚ), some (10 : ℚ))], [((1 : ℚ), some (20 : ℚ))]].flatten) →
      keyRows 1 (dropDupKeepLast [((1 : ℚ), some (10 : ℚ)), (1, some 20)])
        = (keyRows 1 ([[((1 : ℚ), some (10 : ℚ))],
            [((1 : ℚ), some (20 : ℚ))]].flatten)).getLast?.toList)) := by
  have hs : IsSortValuesOutput [((1 : ℚ), some (10 : ℚ)), (1, some 20)]
      ([[((1 : ℚ), some (10 : ℚ))], [((1 : ℚ), some (20 : ℚ))]].flatten) :=
    ⟨List.Perm.refl _, by simp [List.pairwise_cons]⟩
  exact ⟨hs, c6_dedup_one_per_timestamp _ _ hs 1⟩

/- Scheduler lemmas. -/

theorem length_filter_not_add_length_filter {α : Type} (l : List α) (p : α → Bool) :
    (l.filter (fun a => !p a)).length + (l.filter p).length = l.length := by
  induction l with
  | nil => rfl
  | cons x xs ih => cases hx : p x <;> simp [List.filter_cons, hx] <;> omega

theorem run_ok_eq (env : ProjEnv) (h : (recomputeProject env).status = "ok") :
    env.hasAll = true ∧ ¬(env.days.getLast?.getD "" = "") ∧
    recomputeProject env
      = okResult env (env.daySig (env.days.getLast?.getD ""))
          (getAggMinutes env.plotAggMinutes) := by
  unfold recomputeProject at h
  by_cases hAll : env.hasAll = true
  case neg =>
    rw [if_neg hAll] at h
    exact absurd h (by decide)
  rw [if_pos hAll] at h
  by_cases hLD : env.days.getLast?.getD "" = ""
  · rw [if_pos hLD] at h
    exact absurd h (by decide)
  rw [if_neg hLD] at h
  by_cases hC : sameInput env.state (env.daySig (env.days.getLast?.getD "")) ∧
      sameParams env.state (getAggMinutes env.plotAggMinutes) ∧
      env.weekdayCsvOk = true ∧ env.weekendCsvOk = true
  · rw [if_pos hC] at h
    exact absurd h (by decide)
  · refine ⟨hAll, hLD, ?_⟩
    unfold recomputeProject
    rw [if_pos hAll, if_neg hLD, if_neg hC]

/-- C7 counterexample: for a project whose All/ prefix holds no object, one
run returns the status "skipped_no_all", which is none of the four tags ok /
skipped_no_changes / skipped_no_days / error the claim allows. -/
theorem c7_fifth_status_exists :
    (recomputeProject envNoAll).status = "skipped_no_all" ∧
    "skipped_no_all" ∉ (["ok", "skipped_no_changes", "skipped_no_days", "error"] :
      List String) := by
  constructor
  · rfl
  · decide

/-- C7 amended: a run returns one of the five statuses ok,
skipped_no_changes, skipped_no_days, skipped_no_all, error — the fifth
in-function tag skipped_no_all occurring exactly when the project's All/
prefix holds no object, and error being attached by main's per-project
exception handler; when All/ is non-empty the status is one of the claim's
ok / skipped_no_changes / skipped_no_days. -/
theorem c7_status_range (env : ProjEnv) :
    (recomputeProject env).status
      ∈ ["ok", "skipped_no_changes", "skipped_no_days", "skipped_no_all"] ∧
    (env.hasAll = true →
      (recomputeProject env).status ∈ ["ok", "skipped_no_changes", "skipped_no_days"]) := by
  unfold recomputeProject
  constructor
  · split
    · split
      · simp
      · split
        · simp
        · simp [okResult]
    · simp
  · intro hAll
    rw [if_pos hAll]
    split
    · simp
    · split
      · simp
      · simp [okResult]

theorem c7_status_range_witness :
    envOkSample.hasAll = true ∧
    (recomputeProject envOkSample).status ∈ ["ok", "skipped_no_changes", "skipped_no_days"] :=
  ⟨rfl, (c7_status_range envOkSample).2 rfl⟩

/-- C10: whenever a run completes with status ok, the state it persists
satisfies days_weekday + days_weekend = days_total, and days_total is the
number of discovered days: the recompute loop sends every discovered day to
exactly one of the two groups. -/
theorem c10_day_partition_counts (env : ProjEnv)
    (h : (recomputeProject env).status = "ok") :
    ∀ ns ∈ (recomputeProject env).writtenState,
      ns.days_weekday + ns.days_weekend = ns.days_total ∧
      ns.days_total = env.days.length := by
  rcases run_ok_eq env h with ⟨-, -, hrun⟩
  rw [hrun]
  intro ns hns
  have hns' : ns = (okResult env (env.daySig (env.days.getLast?.getD ""))
      (getAggMinutes env.plotAggMinutes)).writtenState.get (by rfl) := by
    cases hns
    rfl
  subst hns'
  refine ⟨?_, rfl⟩
  show (weekdayProfiles env (getAggMinutes env.plotAggMinutes)).length
      + (weekendProfiles env (getAggMinutes env.plotAggMinutes)).length
      = env.days.length
  unfold weekdayProfiles weekendProfiles
  rw [List.length_map, List.length_map]
  exact length_filter_not_add_length_filter env.days env.isHoliday

theorem c10_day_partition_counts_witness :
    (recomputeProject envOkSample).status = "ok" ∧
    (∀ ns ∈ (recomputeProject envOkSample).writtenState,
      ns.days_weekday + ns.days_weekend = ns.days_total ∧
      ns.days_total = envOkSample.days.length) :=
  ⟨rfl, c10_day_partition_counts envOkSample rfl⟩

/-- C1: if a run terminates with status ok, an immediately following run on
the same project — same discovered days, same latest-day fingerprint, same
parameters, the just-written state read back and both just-written outputs
present — terminates with skipped_no_changes and performs no writes at all
(all three write slots are none), so weekday.csv, weekend.csv and state.json
stay byte-identical to after the first run. -/
theorem c1_second_run_skipped (env : ProjEnv)
    (h : (recomputeProject env).status = "ok") :
    recomputeProject (afterRun env (recomputeProject env))
      = ⟨"skipped_no_changes", none, none, none⟩ := by
  rcases run_ok_eq env h with ⟨hAll, hLD, hrun⟩
  rw [hrun]
  have hAll2 : (afterRun env (okResult env (env.daySig (env.days.getLast?.getD ""))
      (getAggMinutes env.plotAggMinutes))).hasAll = true := hAll
  have hLD2 : ¬((afterRun env (okResult env (env.daySig (env.days.getLast?.getD ""))
      (getAggMinutes env.plotAggMinutes))).days.getLast?.getD "" = "") := hLD
  have hC2 : sameInput
        (afterRun env (okResult env (env.daySig (env.days.getLast?.getD ""))
          (getAggMinutes env.plotAggMinutes))).state
        ((afterRun env (okResult env (env.daySig (env.days.getLast?.getD ""))
          (getAggMinutes env.plotAggMinutes))).daySig
          ((afterRun env (okResult env (env.daySig (env.days.getLast?.getD ""))
            (getAggMinutes env.plotAggMinutes))).days.getLast?.getD "")) ∧
      sameParams
        (afterRun env (okResult env (env.daySig (env.days.getLast?.getD ""))
          (getAggMinutes env.plotAggMinutes))).state
        (getAggMinutes
          (afterRun env (okResult env (env.daySig (env.days.getLast?.getD ""))
            (getAggMinutes env.plotAggMinutes))).plotAggMinutes) ∧
      (afterRun env (okResult env (env.daySig (env.days.getLast?.getD ""))
        (getAggMinutes env.plotAggMinutes))).weekdayCsvOk = true ∧
      (afterRun env (okResult env (env.daySig (env.days.getLast?.getD ""))
        (getAggMinutes env.plotAggMinutes))).weekendCsvOk = true :=
    ⟨⟨rfl, rfl, rfl, rfl⟩, ⟨rfl, rfl, rfl⟩, rfl, rfl⟩
  unfold recomputeProject
  rw [if_pos hAll2, if_neg hLD2, if_pos hC2]

theorem c1_second_run_skipped_witness :
    (recomputeProject envOkSample).status = "ok" ∧
    recomputeProject (afterRun envOkSample (recomputeProject envOkSample))
      = ⟨"skipped_no_changes", none, none, none⟩ :=
  ⟨rfl, c1_second_run_skipped envOkSample rfl⟩

/- Quantile interpolation lemmas. -/

theorem getD_indep (xs : List ℚ) (n : ℕ) (d : ℚ) (h : n < xs.length) :
    xs.getD n d = xs.getD n 0 := by
  rw [List.getD_eq_getElem xs d h, List.getD_eq_getElem xs 0 h]

theorem sorted_getD_le (xs : List ℚ) (hs : List.Sorted (fun a b => a ≤ b) xs) (i j : ℕ)
    (hij : i ≤ j) (hj : j < xs.length) : xs.getD i 0 ≤ xs.getD j 0 := by
  have hi : i < xs.length := lt_of_le_of_lt hij hj
  rw [List.getD_eq_getElem xs 0 hi, List.getD_eq_getElem xs 0 hj]
  rcases eq_or_lt_of_le hij with heq | hlt
  · subst heq
    exact le_refl _
  · have := hs.rel_get_of_lt (a := ⟨i, hi⟩) (b := ⟨j, hj⟩) (by exact hlt)
    simpa [List.get_eq_getElem] using this

theorem getD_succ_ge (xs : List ℚ) (hs : List.Sorted (fun a b => a ≤ b) xs) (k : ℕ) :
    xs.getD k 0 ≤ xs.getD (k + 1) (xs.getD k 0) := by
  by_cases h : k + 1 < xs.length
  · rw [getD_indep xs (k + 1) _ h]
    exact sorted_getD_le xs hs k (k + 1) (Nat.le_succ k) h
  · rw [List.getD_eq_default xs _ (le_of_not_lt h)]

theorem interp_core_mono (xs : List ℚ) (hs : List.Sorted (fun a b => a ≤ b) xs)
    (k k' : ℕ) (f f' : ℚ) (hkk' : k ≤ k') (hk' : k' < xs.length)
    (hf1 : f ≤ 1) (hf'0 : 0 ≤ f')
    (hcase : k = k' → f ≤ f') :
    xs.getD k 0 + f * (xs.getD (k + 1) (xs.getD k 0) - xs.getD k 0)
      ≤ xs.getD k' 0 + f' * (xs.getD (k' + 1) (xs.getD k' 0) - xs.getD k' 0) := by
  rcases eq_or_lt_of_le hkk' with heq | hlt
  · subst heq
    have hBA := getD_succ_ge xs hs k
    have hmul := mul_le_mul_of_nonneg_right (hcase rfl) (sub_nonneg.mpr hBA)
    linarith
  · have hk1 : k + 1 < xs.length := lt_of_le_of_lt (Nat.succ_le_of_lt hlt) hk'
    have hBA := getD_succ_ge xs hs k
    have hB'A' := getD_succ_ge xs hs k'
    have step1 : xs.getD k 0 + f * (xs.getD (k + 1) (xs.getD k 0) - xs.getD k 0)
        ≤ xs.getD (k + 1) (xs.getD k 0) := by
      have hmul := mul_le_mul_of_nonneg_right hf1 (sub_nonneg.mpr hBA)
      linarith
    have step2 : xs.getD (k + 1) (xs.getD k 0) ≤ xs.getD k' 0 := by
      rw [getD_indep xs (k + 1) _ hk1]
      exact sorted_getD_le xs hs (k + 1) k' (Nat.succ_le_of_lt hlt) hk'
    have step3 : xs.getD k' 0
        ≤ xs.getD k' 0 + f' * (xs.getD (k' + 1) (xs.getD k' 0) - xs.getD k' 0) := by
      have hmul := mul_nonneg hf'0 (sub_nonneg.mpr hB'A')
      linarith
    linarith

theorem floor_toNat_bounds (pos : ℚ) (h0 : 0 ≤ pos) :
    (((⌊pos⌋).toNat : ℕ) : ℚ) ≤ pos ∧ pos < (((⌊pos⌋).toNat : ℕ) : ℚ) + 1 := by
  have hnn : (0 : ℤ) ≤ ⌊pos⌋ := Int.floor_nonneg.mpr h0
  have hcast : (((⌊pos⌋).toNat : ℕ) : ℚ) = ((⌊pos⌋ : ℤ) : ℚ) := by
    exact_mod_cast congrArg (fun z : ℤ => (z : ℚ)) (Int.toNat_of_nonneg hnn)
  constructor
  · rw [hcast]
    exact Int.floor_le pos
  · rw [hcast]
    exact Int.lt_floor_add_one pos

theorem interpAt_mono (xs : List ℚ) (hs : List.Sorted (fun a b => a ≤ b) xs)
    (pos pos' : ℚ) (h0 : 0 ≤ pos) (hpp : pos ≤ pos')
    (hub : pos' ≤ (xs.length : ℚ) - 1) :
    interpAt xs pos ≤ interpAt xs pos' := by
  have h0' : 0 ≤ pos' := le_trans h0 hpp
  rcases floor_toNat_bounds pos h0 with ⟨hkle, hklt⟩
  rcases floor_toNat_bounds pos' h0' with ⟨hk'le, hk'lt⟩
  have hkk' : (⌊pos⌋).toNat ≤ (⌊pos'⌋).toNat :=
    Int.toNat_le_toNat (Int.floor_le_floor hpp)
  have hk'len : (⌊pos'⌋).toNat < xs.length := by
    have h1 : (((⌊pos'⌋).toNat : ℕ) : ℚ) + 1 ≤ (xs.length : ℚ) := by linarith
    exact_mod_cast h1
  unfold interpAt
  apply interp_core_mono xs hs _ _ _ _ hkk' hk'len
  · linarith
  · linarith
  · intro heq
    rw [heq]
    linarith

theorem quantileSorted_mono (xs : List ℚ) (hs : List.Sorted (fun a b => a ≤ b) xs)
    (hne : xs ≠ []) (q q' : ℚ) (h0 : 0 ≤ q) (hqq' : q ≤ q') (h1 : q' ≤ 1) :
    quantileSorted xs q ≤ quantileSorted xs q' := by
  have hlen : 0 < xs.length := List.length_pos.mpr hne
  have hlen1 : (1 : ℚ) ≤ (xs.length : ℚ) := by exact_mod_cast hlen
  unfold quantileSorted
  apply interpAt_mono xs hs
  · exact mul_nonneg h0 (by linarith)
  · exact mul_le_mul_of_nonneg_right hqq' (by linarith)
  · calc q' * ((xs.length : ℚ) - 1) ≤ 1 * ((xs.length : ℚ) - 1) :=
        mul_le_mul_of_nonneg_right h1 (by linarith)
    _ = (xs.length : ℚ) - 1 := one_mul _

theorem filterMap_all_some_length {α β : Type} (l : List α) (f : α → Option β)
    (h : ∀ a ∈ l, (f a).isSome = true) : (l.filterMap f).length = l.length := by
  induction l with
  | nil => rfl
  | cons x xs ih =>
    cases hx : f x with
    | none =>
      have := h x (List.mem_cons_self x xs)
      rw [hx] at this
      simp at this
    | some b =>
      rw [List.filterMap_cons_some hx, List.length_cons, List.length_cons]
      rw [ih (fun a ha => h a (List.mem_cons_of_mem x ha))]

/-- C4: for a non-empty collection of DayProfiles that all carry a real value
at every bucket, every bucket row of the Quantile Aggregator output is fully
populated and ordered P0.5 ≤ P2.5 ≤ P5 ≤ P25 ≤ P75 ≤ P95 ≤ P97.5 ≤ P99.5
(adjacent entries of the row are some-values in non-decreasing order). -/
theorem c4_percentile_ordering (profiles : List (List (Option ℚ))) (agg : ℕ)
    (hne : profiles ≠ [])
    (hfull : ∀ s ∈ profiles, ∀ i, i < 24 * 60 / agg → (s.getD i none).isSome = true) :
    ∀ i, i < 24 * 60 / agg →
      List.Chain' (fun a b => ∃ x y, a = some x ∧ b = some y ∧ x ≤ y)
        ((computeQuantiles profiles agg).getD i []) := by
  intro i hi
  have hbranch : (computeQuantiles profiles agg).getD i []
      = PERCENTILES.map (fun pl =>
          if profiles.filterMap (fun s => s.getD i none) = [] then none
          else some (quantileSorted
            (List.insertionSort (fun a b => a ≤ b)
              (profiles.filterMap (fun s => s.getD i none))) pl.1)) := by
    unfold computeQuantiles
    rw [if_neg hne]
    exact getD_map_range _ _ hi _ _
  rw [hbranch]
  have hvlen : (profiles.filterMap (fun s => s.getD i none)).length = profiles.length :=
    filterMap_all_some_length _ _ (fun s hsmem => hfull s hsmem i hi)
  have hvne : profiles.filterMap (fun s => s.getD i none) ≠ [] := by
    intro hv
    rw [hv] at hvlen
    exact hne (List.length_eq_zero.mp hvlen.symm)
  have hsorted : List.Sorted (fun a b => a ≤ b)
      (List.insertionSort (fun a b => a ≤ b)
        (profiles.filterMap (fun s => s.getD i none))) :=
    List.sorted_insertionSort _ _
  have hxsne : List.insertionSort (fun a b => a ≤ b)
      (profiles.filterMap (fun s => s.getD i none)) ≠ [] := by
    intro hxs
    have := List.length_insertionSort (fun a b => a ≤ b)
      (profiles.filterMap (fun s => s.getD i none))
    rw [hxs] at this
    exact hvne (List.length_eq_zero.mp this.symm)
  simp only [PERCENTILES, List.map_cons, List.map_nil, if_neg hvne]
  refine List.chain'_cons.mpr ⟨?_, ?_⟩
  · exact ⟨_, _, rfl, rfl, quantileSorted_mono _ hsorted hxsne _ _
      (by norm_num) (by norm_num) (by norm_num)⟩
  refine List.chain'_cons.mpr ⟨?_, ?_⟩
  · exact ⟨_, _, rfl, rfl, quantileSorted_mono _ hsorted hxsne _ _
      (by norm_num) (by norm_num) (by norm_num)⟩
  refine List.chain'_cons.mpr ⟨?_, ?_⟩
  · exact ⟨_, _, rfl, rfl, quantileSorted_mono _ hsorted hxsne _ _
      (by norm_num) (by norm_num) (by norm_num)⟩
  refine List.chain'_cons.mpr ⟨?_, ?_⟩
  · exact ⟨_, _, rfl, rfl, quantileSorted_mono _ hsorted hxsne _ _
      (by norm_num) (by norm_num) (by norm_num)⟩
  refine List.chain'_cons.mpr ⟨?_, ?_⟩
  · exact ⟨_, _, rfl, rfl, quantileSorted_mono _ hsorted hxsne _ _
      (by norm_num) (by norm_num) (by norm_num)⟩
  refine List.chain'_cons.mpr ⟨?_, ?_⟩
  · exact ⟨_, _, rfl, rfl, quantileSorted_mono _ hsorted hxsne _ _
      (by norm_num) (by norm_num) (by norm_num)⟩
  refine List.chain'_cons.mpr ⟨?_, ?_⟩
  · exact ⟨_, _, rfl, rfl, quantileSorted_mono _ hsorted hxsne _ _
      (by norm_num) (by norm_num) (by norm_num)⟩
  exact List.chain'_singleton _


theorem c4_percentile_ordering_witness :
    (([[some 1, some 2], [some 3, some 4]] : List (List (Option ℚ))) ≠ []) ∧
    (∀ s ∈ ([[some 1, some 2], [some 3, some 4]] : List (List (Option ℚ))),
      ∀ i, i < 24 * 60 / 720 → (s.getD i none).isSome = true) ∧
    (∀ i, i < 24 * 60 / 720 →
      List.Chain' (fun a b => ∃ x y, a = some x ∧ b = some y ∧ x ≤ y)
        ((computeQuantiles [[some 1, some 2], [some 3, some 4]] 720).getD i [])) :=
  ⟨by decide, by decide, c4_percentile_ordering _ 720 (by decide) (by decide)⟩
